import Mathlib

/-!
Shallow embedding of the khmer-math-limit-solver application core
(src/App.tsx and src/services/geminiService.ts): the solver service
wrapper, snippet extraction, the bounded history log, history loading,
the canvas-based crop encoder, and the orchestrating state machine,
together with theorems about the specified properties.
-/

namespace KhmerLimitSolver

/-- Image payload as stored in application state and history
(the anonymous record type of `imageBase64` in `App.tsx`). -/
structure ImageData where
  base64 : String
  mimeType : String
  deriving DecidableEq

/-- History entry (the `HistoryEntry` interface in `App.tsx`). -/
structure HistoryEntry where
  id : Nat
  imageData : ImageData
  problemSnippet : String
  fullSolution : String
  deriving DecidableEq

/-- Behaviour of the underlying model call in `solveLimitFromImage`
(`ai.models.generateContent` followed by reading `response.text`):
either it produces text, or it throws an exception that is an
`Error` instance carrying a message, or it throws some other value. -/
inductive SolverResult where
  | ok (text : String)
  | errWithMessage (msg : String)
  | errOther
  deriving DecidableEq

/-- Khmer message built when the model call throws an `Error` instance
(the catch branch of `geminiService.ts`, interpolating the message). -/
def solveErrorHeader : String := "មានបញ្ហាក្នុងការទាក់ទងទៅកាន់សេវាកម្ម AI: "

/-- Khmer message returned when the thrown value is not an `Error`. -/
def solveUnknownMessage : String :=
  "មានបញ្ហាដែលមិនអាចកំណត់បានកើតឡើងនៅពេលព្យាយាមដោះស្រាយលំហាត់។"

/-- `solveLimitFromImage` from `src/services/geminiService.ts`.  Its whole
body is wrapped in try/catch, so the returned promise always resolves
with a string; `Except.error` would model a rejected promise and is
never produced.  The image arguments are carried for fidelity to the
source signature. -/
def solveLimitFromImage (base64Image : String) (mimeType : String)
    (result : SolverResult) : Except String String :=
  match base64Image, mimeType, result with
  | _, _, SolverResult.ok text => Except.ok text
  | _, _, SolverResult.errWithMessage msg => Except.ok (solveErrorHeader ++ msg)
  | _, _, SolverResult.errOther => Except.ok solveUnknownMessage

/-- Splitting a character list at every occurrence of a separator,
modelling JavaScript `String.prototype.split` with a one-character
separator; `""` splits to `[""]`, like in JavaScript. -/
def consHead (c : Char) : List (List Char) → List (List Char)
  | [] => [[c]]
  | l :: ls => (c :: l) :: ls

def splitOnChar (sep : Char) : List Char → List (List Char)
  | [] => [[]]
  | c :: rest =>
      if c = sep then [] :: splitOnChar sep rest
      else consHead c (splitOnChar sep rest)

/-- The markup-stripping step of `extractSnippet`
(the regex replace of every occurrence of one of the four
characters star, backtick, underscore, hash by nothing). -/
def stripMarkup (line : List Char) : List Char :=
  line.filter fun c => !(c = '*' || c.toNat = 96 || c = '_' || c = '#')

/-- Whitespace in the sense of JavaScript `String.prototype.trim`
(restricted to the ASCII whitespace characters). -/
def isJsWhitespace (c : Char) : Bool :=
  c = ' ' || c = '\t' || c = '\n' || c = '\r' || c = '\x0b' || c = '\x0c'

/-- The `.trim()` call at the end of `extractSnippet`. -/
def trimEnds (line : List Char) : List Char :=
  ((line.dropWhile isJsWhitespace).reverse.dropWhile isJsWhitespace).reverse

/-- The predicate of the `lines.find` call inside `extractSnippet`:
the line contains an inline-math dollar delimiter and is shorter than
100 characters. -/
def qualifiesAsSnippet (line : List Char) : Bool :=
  line.contains '$' && decide (line.length < 100)

/-- JavaScript `a || b` on strings: the left operand unless it is the
empty string (the only falsy string). -/
def jsOrChars (a b : List Char) : List Char := if a = [] then b else a

/-- `extractSnippet` from `handleSolve` in `App.tsx`:
split the solved text on newlines, take the first line that contains a
dollar sign and has fewer than 100 characters, else the first line,
else (when that is falsy, i.e. empty) the string `"Problem"`; then
strip markup characters and trim. -/
def extractSnippet (solutionText : String) : String :=
  (trimEnds (stripMarkup (jsOrChars
      (((splitOnChar '\n' solutionText.toList).find? qualifiesAsSnippet).getD [])
      (jsOrChars ((splitOnChar '\n' solutionText.toList).getD 0 [])
        "Problem".toList)))).asString

/-- The history insertion in `handleSolve`:
`[newEntry, ...prevHistory].slice(0, 20)`. -/
def insertHistory (e : HistoryEntry) (h : List HistoryEntry) : List HistoryEntry :=
  (e :: h).take 20

/-- Sequential insertion of a list of entries, first element first. -/
def insertAll (es : List HistoryEntry) (h : List HistoryEntry) : List HistoryEntry :=
  es.foldl (fun acc e => insertHistory e acc) h

/-- The history-loading effect in `App.tsx`: read the stored value, and
if it is present (non-empty, i.e. truthy) parse it; a parse failure is
caught and resets the history to `[]`.  `parse s = none` models
`JSON.parse` throwing. -/
def loadHistory (stored : Option String)
    (parse : String → Option (List HistoryEntry)) : List HistoryEntry :=
  match stored with
  | none => []
  | some s =>
      if s = "" then []
      else
        match parse s with
        | some h => h
        | none => []

/-- The standard base64 alphabet used when serializing canvas contents
to a data URL. -/
def base64Alphabet : List Char :=
  "ABCDEFGHIJKLMNOPQRSTUVWXYZabcdefghijklmnopqrstuvwxyz0123456789+/".toList

def b64Char (n : Nat) : Char := base64Alphabet.getD n '='

/-- Base64 encoding of a byte list (three bytes to four characters,
padded with equality signs), modelling the text-safe payload part of
`canvas.toDataURL`. -/
def base64Encode : List Nat → List Char
  | [] => []
  | [a] => [b64Char (a / 4 % 64), b64Char (a % 4 * 16), '=', '=']
  | [a, b] => [b64Char (a / 4 % 64), b64Char (a % 4 * 16 + b / 16 % 16),
      b64Char (b % 16 * 4), '=']
  | a :: b :: c :: rest =>
      b64Char (a / 4 % 64) :: b64Char (a % 4 * 16 + b / 16 % 16) ::
      b64Char (b % 16 * 4 + c / 64 % 4) :: b64Char (c % 64) :: base64Encode rest

/-- The source `HTMLImageElement` handed to `getCroppedImg`: natural
(full-resolution) dimensions, displayed dimensions, and pixel contents
addressed in natural coordinates. -/
structure SourceImage where
  naturalWidth : Nat
  naturalHeight : Nat
  width : Nat
  height : Nat
  pixelAt : Nat → Nat → Nat

/-- A completed crop rectangle in displayed-image pixel coordinates
(the `PixelCrop` type of react-image-crop). -/
structure PixelCrop where
  x : Nat
  y : Nat
  width : Nat
  height : Nat
  deriving DecidableEq

/-- Modelled from the spec: the browser canvas environment used by
`getCroppedImg`, which is an external rendering surface (spec calls it
the off-screen raster buffer).  `ctxOk` models `canvas.getContext`
succeeding, `blobOk` models `canvas.toBlob` delivering a non-null
blob, and `pixelRatio` models `window.devicePixelRatio || 1`.
`serialize buffer mimeType quality` models the browser's image encoder
serializing the canvas buffer to the given MIME type: quality `none`
is the encoder's default (what `canvas.toDataURL(mimeType)` uses when
given no quality argument), quality `some 1` is maximum quality (what
`canvas.toBlob(cb, mimeType, 1)` uses); a lossless encoder ignores the
quality argument, a lossy one may produce different bytes at different
qualities. -/
structure CanvasEnv where
  ctxOk : Bool
  blobOk : Bool
  pixelRatio : Nat
  serialize : List Nat → String → Option Nat → List Nat

/-- The off-screen canvas buffer drawn by `getCroppedImg`: a raster of
`crop.width * pixelRatio` by `crop.height * pixelRatio` device pixels
sampled from the source image, with the crop rectangle mapped from
displayed to natural coordinates by the `scaleX`/`scaleY` factors
(integer division models the floating-point scaling). -/
def canvasBytes (image : SourceImage) (crop : PixelCrop) (pixelRatio : Nat) :
    List Nat :=
  let w := crop.width * pixelRatio
  let h := crop.height * pixelRatio
  (List.range (w * h)).map fun i =>
    image.pixelAt
      (crop.x * image.naturalWidth / image.width +
        i % w * image.naturalWidth / (image.width * pixelRatio))
      (crop.y * image.naturalHeight / image.height +
        i / w * image.naturalHeight / (image.height * pixelRatio))

/-- `canvas.toDataURL(mimeType)`: a data URL whose payload after the
comma is the base64 encoding of the serialized canvas bytes. -/
def toDataURL (mimeType : String) (bytes : List Nat) : String :=
  "data:" ++ mimeType ++ ";base64," ++ (base64Encode bytes).asString

/-- A renderable display reference held in `imageUrl` or
`uncroppedImageUrl`: either an object URL created by
`URL.createObjectURL` (identified by an allocation handle and carrying
the payload its blob renders) or a `data:` URL built by string
concatenation in `handleSelectHistoryItem`. -/
inductive DisplayUrl where
  | objectUrl (handle : Nat) (payload : String)
  | dataUrl (mimeType : String) (base64 : String)
  deriving DecidableEq

/-- The payload a display reference renders, used to compare it with
the encoded image bytes. -/
def DisplayUrl.payloadBytes : DisplayUrl → String
  | DisplayUrl.objectUrl _ p => p
  | DisplayUrl.dataUrl _ b => b

/-- Result record of `getCroppedImg` (`{ base64, url }`). -/
structure CroppedImageData where
  base64 : String
  url : DisplayUrl
  deriving DecidableEq

/-- `getCroppedImg` from `App.tsx`.  `some (Except.error _)` models the
synchronous throw when no 2d context is available; `none` models
`canvas.toBlob` delivering `null`, in which case the returned promise
never settles.  The canvas is serialized twice and independently:
the base64 payload is extracted as `toDataURL(mimeType).split(',')[1]`
where `toDataURL` receives no quality argument (encoder default,
quality `none`), while the object URL is created for the blob produced
by `toBlob(cb, mimeType, 1)` at maximum quality (`some 1`) — for a
lossy encoder these are different bytes. -/
def getCroppedImg (image : SourceImage) (crop : PixelCrop) (mimeType : String)
    (env : CanvasEnv) (freshHandle : Nat) : Option (Except String CroppedImageData) :=
  if env.ctxOk then
    let bytes := canvasBytes image crop env.pixelRatio
    let base64 :=
      ((splitOnChar ','
          (toDataURL mimeType (env.serialize bytes mimeType none)).toList).getD
        1 []).asString
    if env.blobOk then
      some (Except.ok
        { base64 := base64,
          url := DisplayUrl.objectUrl freshHandle
            (base64Encode (env.serialize bytes mimeType (some 1))).asString })
    else none
  else some (Except.error "Could not get canvas context")

/-- The React state of the `App` component that the core pipeline
reads and writes (crop widget percent-state and theme omitted: no
claim depends on them). -/
structure AppState where
  imageBase64 : Option ImageData
  imageUrl : Option DisplayUrl
  solution : Option String
  isLoading : Bool
  error : Option String
  isCopied : Bool
  history : List HistoryEntry
  uncroppedImageUrl : Option DisplayUrl
  isCropperOpen : Bool
  originalMimeType : Option String
  completedCrop : Option PixelCrop
  deriving DecidableEq

/-- Application state plus a ledger of object-URL handles created by
`URL.createObjectURL` and released by `URL.revokeObjectURL`, for
reasoning about display-handle discipline. -/
structure World where
  app : AppState
  created : List Nat
  revoked : List Nat
  deriving DecidableEq

/-- A file delivered by the file picker: its MIME type and contents. -/
structure FileInput where
  mimeType : String
  bytes : String
  deriving DecidableEq

/-- `URL.revokeObjectURL(url)` applied to an optional display
reference: records the handle when the reference is an object URL;
revoking a `data:` URL is a no-op. -/
def revokeUrl (revoked : List Nat) : Option DisplayUrl → List Nat
  | some (DisplayUrl.objectUrl h _) => h :: revoked
  | _ => revoked

def initState : AppState :=
  { imageBase64 := none, imageUrl := none, solution := none, isLoading := false,
    error := none, isCopied := false, history := [], uncroppedImageUrl := none,
    isCropperOpen := false, originalMimeType := none, completedCrop := none }

def initWorld : World := { app := initState, created := [], revoked := [] }

/-- `handleImageChange`: on a picked file, revoke the previous display
URLs, clear solution/error/image state, remember the MIME type, create
an object URL for the raw file and open the crop modal.  With no file
selected nothing changes. -/
def handleImageChange (w : World) (file : Option FileInput) (freshHandle : Nat) :
    World :=
  match file with
  | none => w
  | some f =>
      { app := { w.app with
          solution := none, error := none, isCopied := false,
          imageUrl := none, imageBase64 := none,
          originalMimeType := some f.mimeType,
          uncroppedImageUrl := some (DisplayUrl.objectUrl freshHandle f.bytes),
          isCropperOpen := true },
        created := freshHandle :: w.created,
        revoked := revokeUrl (revokeUrl w.revoked w.app.imageUrl)
          w.app.uncroppedImageUrl }

/-- The fixed error message of `handleCropConfirm`. -/
def cropFailedMessage : String := "Could not crop the image. Please try again."

/-- `handleCropConfirm`: guarded on a completed crop, a mounted crop
image element and a remembered MIME type; on success installs the
cropped payload and its object URL; on a thrown `getCroppedImg` sets
the crop error; in both settled cases the `finally` block closes the
modal and drops (without revoking) the raw-image URL.  When the
`getCroppedImg` promise never settles nothing further happens. -/
def handleCropConfirm (w : World) (cropImageRef : Option SourceImage)
    (env : CanvasEnv) (freshHandle : Nat) : World :=
  match w.app.completedCrop, cropImageRef, w.app.originalMimeType with
  | some crop, some image, some mime =>
      match getCroppedImg image crop mime env freshHandle with
      | none => w
      | some (Except.ok data) =>
          { app := { w.app with
              imageBase64 := some { base64 := data.base64, mimeType := mime },
              imageUrl := some data.url,
              isCropperOpen := false, uncroppedImageUrl := none },
            created := freshHandle :: w.created,
            revoked := w.revoked }
      | some (Except.error _) =>
          { app := { w.app with
              error := some cropFailedMessage,
              isCropperOpen := false, uncroppedImageUrl := none },
            created := w.created,
            revoked := w.revoked }
  | _, _, _ => w

/-- `handleCropCancel`: closes the modal and drops (without revoking)
the raw-image URL. -/
def handleCropCancel (w : World) : World :=
  { w with app := { w.app with isCropperOpen := false, uncroppedImageUrl := none } }

/-- The fixed Khmer error message of the catch branch of `handleSolve`. -/
def solveFailedMessage : String := "មានបញ្ហាក្នុងការដោះស្រាយលំហាត់។ សូមព្យាយាមម្តងទៀត។"

/-- `handleSolve`: guarded on a current image; awaits
`solveLimitFromImage`; a resolved promise installs the result as the
solution and inserts a history entry; a rejected promise would set the
fixed error message. -/
def handleSolve (w : World) (now : Nat) (r : SolverResult) : World :=
  match w.app.imageBase64 with
  | none => w
  | some img =>
      match solveLimitFromImage img.base64 img.mimeType r with
      | Except.ok result =>
          { w with app := { w.app with
              isLoading := false, error := none, isCopied := false,
              solution := some result,
              history := insertHistory
                { id := now, imageData := img,
                  problemSnippet := extractSnippet result,
                  fullSolution := result } w.app.history } }
      | Except.error _ =>
          { w with app := { w.app with
              isLoading := false, solution := none, isCopied := false,
              error := some solveFailedMessage } }

/-- `handleSelectHistoryItem`: installs the entry's image, a `data:`
URL over the same base64 payload, and the stored solution; clears any
error. -/
def handleSelectHistoryItem (w : World) (item : HistoryEntry) : World :=
  { w with app := { w.app with
      imageBase64 := some item.imageData,
      imageUrl := some (DisplayUrl.dataUrl item.imageData.mimeType
        item.imageData.base64),
      solution := some item.fullSolution,
      error := none, isCopied := false } }

def handleClearHistory (w : World) : World :=
  { w with app := { w.app with history := [] } }

def handleDeleteHistoryEntry (w : World) (id : Nat) : World :=
  { w with app := { w.app with
      history := w.app.history.filter fun e => e.id != id } }

/-- One user-visible action of the orchestrator, carrying the
environment data the corresponding handler consumes (fresh object-URL
handles, the crop widget's completed rectangle, the mounted image
element, the canvas environment, `Date.now()`, the solver outcome). -/
inductive AppEvent where
  | pickFile (file : Option FileInput) (freshHandle : Nat)
  | setCompletedCrop (c : Option PixelCrop)
  | cropConfirm (cropImageRef : Option SourceImage) (env : CanvasEnv)
      (freshHandle : Nat)
  | cropCancel
  | solve (now : Nat) (r : SolverResult)
  | selectHistory (item : HistoryEntry)
  | deleteHistory (id : Nat)
  | clearHistory

/-- The orchestrating state machine: each event runs its handler. -/
def step (w : World) : AppEvent → World
  | AppEvent.pickFile f u => handleImageChange w f u
  | AppEvent.setCompletedCrop c => { w with app := { w.app with completedCrop := c } }
  | AppEvent.cropConfirm ref env u => handleCropConfirm w ref env u
  | AppEvent.cropCancel => handleCropCancel w
  | AppEvent.solve now r => handleSolve w now r
  | AppEvent.selectHistory item => handleSelectHistoryItem w item
  | AppEvent.deleteHistory id => handleDeleteHistoryEntry w id
  | AppEvent.clearHistory => handleClearHistory w

/-- The ProblemState invariant of the spec: the display URL is present
exactly when the encoded image is present, and it renders the same
bytes. -/
def problemInv (a : AppState) : Prop :=
  a.imageBase64.isSome = a.imageUrl.isSome ∧
  ∀ img u, a.imageBase64 = some img → a.imageUrl = some u →
    DisplayUrl.payloadBytes u = img.base64

/-- A sample history entry with the given identity. -/
def mkEntry (i : Nat) : HistoryEntry :=
  { id := i, imageData := { base64 := "", mimeType := "" },
    problemSnippet := "", fullSolution := "" }

def his21 : List HistoryEntry := (List.range 21).map mkEntry

/-- A state holding a croppable image, ready for `handleSolve`. -/
def solveReadyWorld : World :=
  { initWorld with app := { initState with
      imageBase64 := some { base64 := "IMGDATA", mimeType := "image/png" },
      imageUrl := some (DisplayUrl.dataUrl "image/png" "IMGDATA") } }

/-- A state displaying a problem and its solution. -/
def displayedWorld : World :=
  { initWorld with app := { initState with
      imageBase64 := some { base64 := "AAA", mimeType := "image/png" },
      imageUrl := some (DisplayUrl.dataUrl "image/png" "AAA"),
      solution := some "42" } }

def filePng : FileInput := { mimeType := "image/png", bytes := "FILEBYTES" }

def sampleCrop : PixelCrop := { x := 0, y := 0, width := 1, height := 1 }

def sampleImg : SourceImage :=
  { naturalWidth := 1, naturalHeight := 1, width := 1, height := 1,
    pixelAt := fun _ _ => 0 }

/-- A canvas environment with a lossless encoder: serialization ignores
the quality argument (as for `image/png`). -/
def sampleEnv : CanvasEnv :=
  { ctxOk := true, blobOk := true, pixelRatio := 1,
    serialize := fun bs _ _ => bs }

/-- A canvas environment with a lossy encoder: maximum quality
preserves the buffer, the default quality degrades it (as a lossy
`image/jpeg`/`image/webp` encoder may). -/
def lossyEnv : CanvasEnv :=
  { ctxOk := true, blobOk := true, pixelRatio := 1,
    serialize := fun bs _ q =>
      match q with
      | some 1 => bs
      | _ => bs.map fun b => b / 2 }

def lossyImg : SourceImage :=
  { naturalWidth := 1, naturalHeight := 1, width := 1, height := 1,
    pixelAt := fun _ _ => 7 }

/-- A state with an open crop session over a lossy MIME type, ready for
`handleCropConfirm`. -/
def lossyCropWorld : World :=
  { app := { initState with
      uncroppedImageUrl := some (DisplayUrl.objectUrl 2 "RAWBYTES"),
      isCropperOpen := true,
      originalMimeType := some "image/jpeg",
      completedCrop := some sampleCrop },
    created := [2], revoked := [] }

/-- The presence half of the ProblemState invariant: the display URL is
present exactly when the encoded image is present. -/
def presenceInv (a : AppState) : Prop :=
  a.imageBase64.isSome = a.imageUrl.isSome

/-- Side condition under which payload and display handle stay
byte-identical at crop confirm: the canvas encoder produces the same
bytes at maximum quality (the `toBlob` path) as at its default quality
(the `toDataURL` path) — true of lossless formats — and the remembered
MIME type contains no comma (true of all real image MIME types).
Every other event carries no condition. -/
def consistentSerialization (w : World) : AppEvent → Prop
  | AppEvent.cropConfirm _ env _ =>
      (∀ bs m, env.serialize bs m (some 1) = env.serialize bs m none) ∧
      (∀ m, w.app.originalMimeType = some m → (',' : Char) ∉ m.toList)
  | _ => True

/-- A state with an open crop session, ready for `handleCropConfirm`. -/
def cropReadyWorld : World :=
  { app := { initState with
      uncroppedImageUrl := some (DisplayUrl.objectUrl 2 "FILEBYTES"),
      isCropperOpen := true,
      originalMimeType := some "image/png",
      completedCrop := some sampleCrop },
    created := [2], revoked := [] }

theorem take_append_take {α : Type} (xs ys : List α) (n : Nat) :
    (xs ++ ys.take n).take n = (xs ++ ys).take n := by
  rw [List.take_append_eq_append_take, List.take_append_eq_append_take,
    List.take_take]
  have hmin : (n - xs.length) ⊓ n = n - xs.length :=
    inf_eq_left.mpr (Nat.sub_le n xs.length)
  rw [hmin]

theorem insertHistory_length_le (e : HistoryEntry) (h : List HistoryEntry) :
    (insertHistory e h).length ≤ 20 := by
  simp [insertHistory]

theorem insertAll_eq_take (es : List HistoryEntry) :
    ∀ h : List HistoryEntry, h.length ≤ 20 →
      insertAll es h = (es.reverse ++ h).take 20 := by
  induction es with
  | nil =>
      intro h hh
      simp [insertAll, List.take_of_length_le hh]
  | cons e es ih =>
      intro h hh
      have hstep : insertAll (e :: es) h = insertAll es (insertHistory e h) := rfl
      rw [hstep, ih (insertHistory e h) (insertHistory_length_le e h)]
      show (es.reverse ++ (e :: h).take 20).take 20 = ((e :: es).reverse ++ h).take 20
      rw [take_append_take, List.reverse_cons, List.append_assoc,
        List.singleton_append]

/-- C2: inserting into the history log prepends the new entry, keeps the
length at or below 20 after every sequence of inserts from a log of
length at most 20, retains exactly the most recent 20 entries
(most-recent-first), and after 21 distinct sequential inserts from the
empty log the first-inserted entry is gone and the last-inserted one is
at the head. -/
theorem C2_history_insert_bound (h0 : List HistoryEntry) (es : List HistoryEntry)
    (hlen : h0.length ≤ 20) :
    (∀ (e : HistoryEntry) (h : List HistoryEntry),
        (insertHistory e h).head? = some e) ∧
    (∀ p : List HistoryEntry, (insertAll p h0).length ≤ 20) ∧
    insertAll es h0 = (es.reverse ++ h0).take 20 ∧
    (es.length = 21 → es.Nodup → ∀ e0, es.head? = some e0 →
      e0 ∉ insertAll es [] ∧ (insertAll es []).head? = es.getLast?) := by
  refine ⟨?_, ?_, insertAll_eq_take es h0 hlen, ?_⟩
  · intro e h
    rfl
  · intro p
    rw [insertAll_eq_take p h0 hlen]
    simp
  · intro h21 hnd e0 hh
    obtain ⟨rest, rfl⟩ : ∃ rest, es = e0 :: rest := by
      cases es with
      | nil => simp at hh
      | cons a l =>
          simp at hh
          exact ⟨l, by rw [hh]⟩
    have hr : rest.length = 20 := by simpa using h21
    have hform : insertAll (e0 :: rest) [] = rest.reverse := by
      rw [insertAll_eq_take _ [] (by simp), List.reverse_cons, List.append_nil]
      exact List.take_left' (by simp [hr])
    constructor
    · rw [hform, List.mem_reverse]
      exact (List.nodup_cons.mp hnd).1
    · rw [hform, List.head?_reverse]
      cases rest with
      | nil => simp at hr
      | cons b t => rw [List.getLast?_cons_cons]

theorem C2_history_insert_bound_witness :
    (insertAll his21 []).length ≤ 20 ∧
    mkEntry 0 ∉ insertAll his21 [] ∧
    (insertAll his21 []).head? = his21.getLast? := by
  have h := C2_history_insert_bound [] his21 (by decide)
  exact ⟨h.2.1 his21,
    (h.2.2.2 (by decide) (by decide) (mkEntry 0) (by decide)).1,
    (h.2.2.2 (by decide) (by decide) (mkEntry 0) (by decide)).2⟩

/-- C5 (amended): snippet extraction is a deterministic pure function
returning the stripped-and-trimmed first line that contains a dollar
delimiter and has fewer than 100 characters; with no qualifying line it
falls back to the stripped-and-trimmed first line when that line is
non-empty, and to the fixed placeholder when the first line is empty —
in particular when the whole text is empty. -/
theorem C5_snippet_extraction (t : String) :
    (∀ l, (splitOnChar '\n' t.toList).find? qualifiesAsSnippet = some l →
        extractSnippet t = (trimEnds (stripMarkup l)).asString) ∧
    ((splitOnChar '\n' t.toList).find? qualifiesAsSnippet = none →
      ∀ l0, (splitOnChar '\n' t.toList).getD 0 [] = l0 →
        (l0 ≠ [] → extractSnippet t = (trimEnds (stripMarkup l0)).asString) ∧
        (l0 = [] → extractSnippet t = "Problem")) ∧
    (t = "" → extractSnippet t = "Problem") ∧
    (∀ t2, t = t2 → extractSnippet t = extractSnippet t2) := by
  refine ⟨?_, ?_, ?_, ?_⟩
  · intro l hfind
    have hq := List.find?_some hfind
    have hne : l ≠ [] := by
      intro h0
      subst h0
      simp [qualifiesAsSnippet] at hq
    unfold extractSnippet
    rw [hfind]
    simp [jsOrChars, hne]
  · intro hfind l0 hl0
    constructor
    · intro hne
      unfold extractSnippet
      rw [hfind, hl0]
      simp [jsOrChars, hne]
    · intro h0
      unfold extractSnippet
      rw [hfind, hl0, h0]
      rfl
  · intro h
    subst h
    rfl
  · intro t2 h
    rw [h]

theorem C5_snippet_extraction_witness :
    extractSnippet "x$\nrest" = (trimEnds (stripMarkup ['x', '$'])).asString :=
  (C5_snippet_extraction "x$\nrest").1 ['x', '$'] (by decide)

/-- C5 counterexample: on input `"\nabc"` no line qualifies and the
first line is empty, yet the snippet is the placeholder `"Problem"`
rather than the (stripped, trimmed) first line, which is empty — so the
fallback to the placeholder is not restricted to empty input text. -/
theorem C5_counterexample :
    (splitOnChar '\n' "\nabc".toList).find? qualifiesAsSnippet = none ∧
    (splitOnChar '\n' "\nabc".toList).getD 0 [] = [] ∧
    ("\nabc" : String) ≠ "" ∧
    extractSnippet "\nabc" = "Problem" ∧
    ("Problem" : String) ≠ (trimEnds (stripMarkup ([] : List Char))).asString := by
  refine ⟨rfl, rfl, by decide, rfl, by decide⟩

/-- C9: loading the persisted history never fails the caller — it is a
total function; with the stored value absent (or falsy) the log is
initialized empty, and with unparsable content (`JSON.parse` throwing)
the log is initialized empty. -/
theorem C9_load_never_fails (parse : String → Option (List HistoryEntry))
    (s : String) :
    loadHistory none parse = [] ∧
    (parse s = none → loadHistory (some s) parse = []) ∧
    (s = "" → loadHistory (some s) parse = []) := by
  refine ⟨rfl, ?_, ?_⟩
  · intro hp
    by_cases hs : s = "" <;> simp [loadHistory, hs, hp]
  · intro hs
    simp [loadHistory, hs]

theorem C9_load_never_fails_witness :
    loadHistory (some "junk") (fun _ => none) = [] :=
  (C9_load_never_fails (fun _ => none) "junk").2.1 rfl

/-- C10: for every image payload, MIME type and behaviour of the
underlying model call — including thrown exceptions —
`solveLimitFromImage` settles successfully with a string and never
rejects; an `Error` is converted into a returned message string
carrying the exception's message, and any other thrown value into a
fixed message, both delivered through the same successful channel as a
real solution. -/
theorem C10_service_always_resolves (b64 mt : String) (r : SolverResult) :
    (∃ s, solveLimitFromImage b64 mt r = Except.ok s) ∧
    (∀ m, r = SolverResult.errWithMessage m →
      solveLimitFromImage b64 mt r = Except.ok (solveErrorHeader ++ m)) ∧
    (r = SolverResult.errOther →
      solveLimitFromImage b64 mt r = Except.ok solveUnknownMessage) := by
  refine ⟨?_, ?_, ?_⟩
  · cases r with
    | ok text => exact ⟨text, rfl⟩
    | errWithMessage m => exact ⟨solveErrorHeader ++ m, rfl⟩
    | errOther => exact ⟨solveUnknownMessage, rfl⟩
  · intro m hm
    subst hm
    rfl
  · intro hm
    subst hm
    rfl

theorem C10_service_always_resolves_witness :
    solveLimitFromImage "IMG" "image/png"
        (SolverResult.errWithMessage "network down")
      = Except.ok (solveErrorHeader ++ "network down") :=
  (C10_service_always_resolves "IMG" "image/png"
      (SolverResult.errWithMessage "network down")).2.1 "network down" rfl

/-- C1 (code behaviour at the failing input): when the model call
throws a network error during `handleSolve`, the service converts the
exception into a resolved string, so the app takes the success path —
the solution becomes the service's error text (exposing the underlying
message), no error is displayed, and the history gains a new entry
whose stored solution is that error text; only the ProblemState is
left unchanged.  This contradicts the specified `Failed(message)`
outcome with unchanged history. -/
theorem C1_solver_failure_behavior :
    (step solveReadyWorld (AppEvent.solve 99
        (SolverResult.errWithMessage "network down"))).app.solution
      = some (solveErrorHeader ++ "network down") ∧
    (step solveReadyWorld (AppEvent.solve 99
        (SolverResult.errWithMessage "network down"))).app.error = none ∧
    (step solveReadyWorld (AppEvent.solve 99
        (SolverResult.errWithMessage "network down"))).app.history.length = 1 ∧
    (step solveReadyWorld (AppEvent.solve 99
        (SolverResult.errWithMessage "network down"))).app.history.head?.map
        HistoryEntry.fullSolution = some (solveErrorHeader ++ "network down") ∧
    (step solveReadyWorld (AppEvent.solve 99
        (SolverResult.errWithMessage "network down"))).app.imageBase64
      = solveReadyWorld.app.imageBase64 :=
  ⟨rfl, rfl, rfl, rfl, rfl⟩

/-- C3 (code behaviour at the failing input): picking a file creates an
object URL (handle 7) for the pending raw image; cancelling the crop
session merely drops the reference without calling
`URL.revokeObjectURL`, so on exit from the open session the handle has
been created but never released. -/
theorem C3_raw_handle_never_released :
    (step (step initWorld (AppEvent.pickFile (some filePng) 7))
        AppEvent.cropCancel).created = [7] ∧
    (step (step initWorld (AppEvent.pickFile (some filePng) 7))
        AppEvent.cropCancel).revoked = [] ∧
    (step (step initWorld (AppEvent.pickFile (some filePng) 7))
        AppEvent.cropCancel).app.uncroppedImageUrl = none :=
  ⟨rfl, rfl, rfl⟩

/-- C4 counterexample: with a problem and solution displayed, opening a
crop session (picking a new file) and then cancelling it does not
restore the pre-open ProblemState/SolveOutcome — the solution and image
were cleared at session open and stay cleared after cancel. -/
theorem C4_counterexample :
    (step (step displayedWorld (AppEvent.pickFile (some filePng) 7))
        AppEvent.cropCancel).app.solution ≠ displayedWorld.app.solution ∧
    (step (step displayedWorld (AppEvent.pickFile (some filePng) 7))
        AppEvent.cropCancel).app.imageBase64 ≠ displayedWorld.app.imageBase64 := by
  exact ⟨by decide, by decide⟩

/-- C4 (amended): the cancel operation itself changes neither the
ProblemState (image and display URL) nor the SolveOutcome
(solution/error) and raises no error — it only closes the session and
discards the pending raw image.  ProblemState and SolveOutcome are
therefore exactly as they were while the session was open, not as they
were before it opened, because opening the session already cleared
them. -/
theorem C4_cancel_frame (w : World) :
    (step w AppEvent.cropCancel).app.imageBase64 = w.app.imageBase64 ∧
    (step w AppEvent.cropCancel).app.imageUrl = w.app.imageUrl ∧
    (step w AppEvent.cropCancel).app.solution = w.app.solution ∧
    (step w AppEvent.cropCancel).app.error = w.app.error ∧
    (step w AppEvent.cropCancel).app.isCropperOpen = false ∧
    (step w AppEvent.cropCancel).app.uncroppedImageUrl = none :=
  ⟨rfl, rfl, rfl, rfl, rfl, rfl⟩

/-- C6: selecting a history entry installs the entry's image, a data
URL over the same payload, and `Succeeded(fullSolution)` with the error
cleared, mutating no history; deleting an entry or clearing the log
leaves the displayed ProblemState and SolveOutcome untouched, from any
state whatsoever (so also when the displayed entry came from
history). -/
theorem C6_select_and_history_frame (w : World) (item : HistoryEntry) (id : Nat) :
    ((step w (AppEvent.selectHistory item)).app.imageBase64 = some item.imageData ∧
     (step w (AppEvent.selectHistory item)).app.imageUrl =
       some (DisplayUrl.dataUrl item.imageData.mimeType item.imageData.base64) ∧
     (step w (AppEvent.selectHistory item)).app.solution = some item.fullSolution ∧
     (step w (AppEvent.selectHistory item)).app.error = none ∧
     (step w (AppEvent.selectHistory item)).app.history = w.app.history) ∧
    ((step w (AppEvent.deleteHistory id)).app.imageBase64 = w.app.imageBase64 ∧
     (step w (AppEvent.deleteHistory id)).app.imageUrl = w.app.imageUrl ∧
     (step w (AppEvent.deleteHistory id)).app.solution = w.app.solution ∧
     (step w (AppEvent.deleteHistory id)).app.error = w.app.error) ∧
    ((step w AppEvent.clearHistory).app.imageBase64 = w.app.imageBase64 ∧
     (step w AppEvent.clearHistory).app.imageUrl = w.app.imageUrl ∧
     (step w AppEvent.clearHistory).app.solution = w.app.solution ∧
     (step w AppEvent.clearHistory).app.error = w.app.error) :=
  ⟨⟨rfl, rfl, rfl, rfl, rfl⟩, ⟨rfl, rfl, rfl, rfl⟩, ⟨rfl, rfl, rfl, rfl⟩⟩

theorem splitOnChar_of_not_mem (sep : Char) (xs : List Char) (h : sep ∉ xs) :
    splitOnChar sep xs = [xs] := by
  induction xs with
  | nil => rfl
  | cons c rest ih =>
      simp only [List.mem_cons, not_or] at h
      simp only [splitOnChar]
      rw [if_neg (fun hc => h.1 hc.symm), ih h.2]
      rfl

theorem splitOnChar_append (sep : Char) (xs ys : List Char) (h : sep ∉ xs) :
    splitOnChar sep (xs ++ sep :: ys) = xs :: splitOnChar sep ys := by
  induction xs with
  | nil => simp [splitOnChar]
  | cons c rest ih =>
      simp only [List.mem_cons, not_or] at h
      simp only [List.cons_append, splitOnChar]
      rw [if_neg (fun hc => h.1 hc.symm)]
      simp only [List.append_eq]
      rw [ih h.2]
      rfl

theorem b64Char_ne_comma (n : Nat) : b64Char n ≠ ',' := by
  unfold b64Char
  rcases Nat.lt_or_ge n base64Alphabet.length with h | h
  · rw [List.getD_eq_getElem _ _ h]
    intro hc
    have hmem : (',' : Char) ∈ base64Alphabet := hc ▸ List.getElem_mem h
    exact absurd hmem (by decide)
  · rw [List.getD_eq_default _ _ h]
    decide

theorem comma_not_mem_base64Encode (bs : List Nat) :
    (',' : Char) ∉ base64Encode bs := by
  induction bs using base64Encode.induct with
  | case1 => simp [base64Encode]
  | case2 a =>
      intro hmem
      simp only [base64Encode, List.mem_cons, List.not_mem_nil, or_false] at hmem
      rcases hmem with h | h | h | h
      · exact b64Char_ne_comma _ h.symm
      · exact b64Char_ne_comma _ h.symm
      · exact absurd h (by decide)
      · exact absurd h (by decide)
  | case3 a b =>
      intro hmem
      simp only [base64Encode, List.mem_cons, List.not_mem_nil, or_false] at hmem
      rcases hmem with h | h | h | h
      · exact b64Char_ne_comma _ h.symm
      · exact b64Char_ne_comma _ h.symm
      · exact b64Char_ne_comma _ h.symm
      · exact absurd h (by decide)
  | case4 a b c rest ih =>
      intro hmem
      simp only [base64Encode, List.mem_cons] at hmem
      rcases hmem with h | h | h | h | h
      · exact b64Char_ne_comma _ h.symm
      · exact b64Char_ne_comma _ h.symm
      · exact b64Char_ne_comma _ h.symm
      · exact b64Char_ne_comma _ h.symm
      · exact ih h

theorem base64Encode_ne_nil : (bs : List Nat) → bs ≠ [] → base64Encode bs ≠ []
  | [], h => absurd rfl h
  | [_], _ => by simp [base64Encode]
  | [_, _], _ => by simp [base64Encode]
  | _ :: _ :: _ :: _, _ => by simp [base64Encode]

theorem toDataURL_toList (mimeType : String) (bytes : List Nat) :
    (toDataURL mimeType bytes).toList =
      ("data:".toList ++ mimeType.toList ++ ";base64".toList) ++
        ',' :: base64Encode bytes := by
  show ("data:" ++ mimeType ++ ";base64," ++ (base64Encode bytes).asString).data = _
  rw [String.data_append, String.data_append, String.data_append]
  have hB : ";base64,".data = ";base64".data ++ [','] := rfl
  have hA : ((base64Encode bytes).asString).data = base64Encode bytes := rfl
  rw [hB, hA]
  show _ = ("data:".data ++ mimeType.data ++ ";base64".data) ++
      ',' :: base64Encode bytes
  simp [List.append_assoc]

theorem payload_extract (mime : String) (bytes : List Nat)
    (hm : (',' : Char) ∉ mime.toList) :
    ((splitOnChar ',' (toDataURL mime bytes).toList).getD 1 []).asString
      = (base64Encode bytes).asString := by
  have hpre : (',' : Char) ∉
      "data:".toList ++ mime.toList ++ ";base64".toList := by
    simp only [List.mem_append, not_or]
    exact ⟨⟨by decide, hm⟩, by decide⟩
  rw [toDataURL_toList, splitOnChar_append _ _ _ hpre,
    splitOnChar_of_not_mem _ _ (comma_not_mem_base64Encode _)]
  rfl

theorem getCroppedImg_ok (image : SourceImage) (crop : PixelCrop) (mime : String)
    (env : CanvasEnv) (u : Nat)
    (hctx : env.ctxOk = true) (hblob : env.blobOk = true)
    (hm : (',' : Char) ∉ mime.toList) :
    getCroppedImg image crop mime env u =
      some (Except.ok
        { base64 := (base64Encode (env.serialize
              (canvasBytes image crop env.pixelRatio) mime none)).asString,
          url := DisplayUrl.objectUrl u (base64Encode (env.serialize
              (canvasBytes image crop env.pixelRatio) mime (some 1))).asString }) := by
  unfold getCroppedImg
  rw [hctx, hblob]
  simp only [if_true]
  rw [payload_extract mime _ hm]

theorem getCroppedImg_ok_shape {image : SourceImage} {crop : PixelCrop}
    {mime : String} {env : CanvasEnv} {u : Nat} {d : CroppedImageData}
    (h : getCroppedImg image crop mime env u = some (Except.ok d)) :
    d.base64 = ((splitOnChar ','
        (toDataURL mime (env.serialize (canvasBytes image crop env.pixelRatio)
          mime none)).toList).getD 1 []).asString ∧
    d.url = DisplayUrl.objectUrl u (base64Encode (env.serialize
        (canvasBytes image crop env.pixelRatio) mime (some 1))).asString := by
  simp only [getCroppedImg] at h
  split at h
  · split at h
    · obtain rfl := Except.ok.inj (Option.some.inj h)
      exact ⟨rfl, rfl⟩
    · exact absurd h (by simp)
  · simp at h

/-- C7 counterexample: with a lossy canvas encoder (as the browser may
use for `image/jpeg`/`image/webp`), the payload installed by crop
confirm is the base64 of the default-quality serialization — because
`canvas.toDataURL(mimeType)` is called with no quality argument — and
that differs from the base64 of the maximum-quality serialization, so
the payload is not serialized at maximum quality as claimed. -/
theorem C7_counterexample :
    (step lossyCropWorld
        (AppEvent.cropConfirm (some lossyImg) lossyEnv 3)).app.imageBase64 =
      some { base64 := (base64Encode (lossyEnv.serialize
               (canvasBytes lossyImg sampleCrop lossyEnv.pixelRatio)
               "image/jpeg" none)).asString,
             mimeType := "image/jpeg" } ∧
    (base64Encode (lossyEnv.serialize
        (canvasBytes lossyImg sampleCrop lossyEnv.pixelRatio)
        "image/jpeg" none)).asString ≠
      (base64Encode (lossyEnv.serialize
        (canvasBytes lossyImg sampleCrop lossyEnv.pixelRatio)
        "image/jpeg" (some 1))).asString :=
  ⟨rfl, by decide⟩

/-- C7 (amended): confirming a valid crop (positive rectangle, working
rendering surface, settling blob creation, positive device pixel
ratio, a real comma-free MIME type, and an encoder yielding data on
non-empty buffers) serializes the selected region to the requested
MIME type — the payload at the encoder's default quality (`toDataURL`
receives no quality argument) and the separately produced display
handle at maximum quality (`toBlob` quality 1) — and records the
requested MIME type together with a payload whose decoded byte length
(the length of the serialized buffer it encodes) is positive and whose
text is non-empty. -/
theorem C7_encode_contract (w : World) (imgEl : SourceImage) (env : CanvasEnv)
    (u : Nat) (crop : PixelCrop) (mime : String)
    (hc : w.app.completedCrop = some crop)
    (hmime : w.app.originalMimeType = some mime)
    (hw : 0 < crop.width) (hh : 0 < crop.height) (hpr : 0 < env.pixelRatio)
    (hctx : env.ctxOk = true) (hblob : env.blobOk = true)
    (hm : (',' : Char) ∉ mime.toList)
    (hser : ∀ bs m, bs ≠ [] → env.serialize bs m none ≠ []) :
    (step w (AppEvent.cropConfirm (some imgEl) env u)).app.imageBase64 =
      some { base64 := (base64Encode (env.serialize
               (canvasBytes imgEl crop env.pixelRatio) mime none)).asString,
             mimeType := mime } ∧
    (step w (AppEvent.cropConfirm (some imgEl) env u)).app.imageUrl =
      some (DisplayUrl.objectUrl u (base64Encode (env.serialize
        (canvasBytes imgEl crop env.pixelRatio) mime (some 1))).asString) ∧
    0 < (canvasBytes imgEl crop env.pixelRatio).length ∧
    0 < (env.serialize (canvasBytes imgEl crop env.pixelRatio) mime none).length ∧
    (base64Encode (env.serialize (canvasBytes imgEl crop env.pixelRatio)
        mime none)).asString ≠ "" := by
  have hlen : (canvasBytes imgEl crop env.pixelRatio).length =
      crop.width * env.pixelRatio * (crop.height * env.pixelRatio) := by
    simp [canvasBytes]
  have hpos : 0 < (canvasBytes imgEl crop env.pixelRatio).length := by
    rw [hlen]
    exact Nat.mul_pos (Nat.mul_pos hw hpr) (Nat.mul_pos hh hpr)
  have hcne : canvasBytes imgEl crop env.pixelRatio ≠ [] := by
    intro h0
    rw [h0] at hpos
    simp at hpos
  have hsne : env.serialize (canvasBytes imgEl crop env.pixelRatio) mime none
      ≠ [] := hser _ mime hcne
  refine ⟨?_, ?_, hpos, List.length_pos.mpr hsne, ?_⟩
  · show (handleCropConfirm w (some imgEl) env u).app.imageBase64 = _
    unfold handleCropConfirm
    rw [hc, hmime]
    dsimp only
    rw [getCroppedImg_ok imgEl crop mime env u hctx hblob hm]
  · show (handleCropConfirm w (some imgEl) env u).app.imageUrl = _
    unfold handleCropConfirm
    rw [hc, hmime]
    dsimp only
    rw [getCroppedImg_ok imgEl crop mime env u hctx hblob hm]
  · intro hcon
    exact base64Encode_ne_nil _ hsne (congrArg String.data hcon)

theorem C7_encode_contract_witness :
    (step cropReadyWorld
        (AppEvent.cropConfirm (some sampleImg) sampleEnv 3)).app.imageBase64 =
      some { base64 := (base64Encode (sampleEnv.serialize
               (canvasBytes sampleImg sampleCrop sampleEnv.pixelRatio)
               "image/png" none)).asString,
             mimeType := "image/png" } ∧
    (step cropReadyWorld
        (AppEvent.cropConfirm (some sampleImg) sampleEnv 3)).app.imageUrl =
      some (DisplayUrl.objectUrl 3 (base64Encode (sampleEnv.serialize
        (canvasBytes sampleImg sampleCrop sampleEnv.pixelRatio)
        "image/png" (some 1))).asString) ∧
    0 < (canvasBytes sampleImg sampleCrop sampleEnv.pixelRatio).length ∧
    0 < (sampleEnv.serialize (canvasBytes sampleImg sampleCrop
        sampleEnv.pixelRatio) "image/png" none).length ∧
    (base64Encode (sampleEnv.serialize (canvasBytes sampleImg sampleCrop
        sampleEnv.pixelRatio) "image/png" none)).asString ≠ "" :=
  C7_encode_contract cropReadyWorld sampleImg sampleEnv 3 sampleCrop "image/png"
    rfl rfl (by decide) (by decide) (by decide) rfl rfl (by decide)
    (fun _ _ h => h)

theorem problemInv_of_fields {a b : AppState}
    (h1 : a.imageBase64 = b.imageBase64) (h2 : a.imageUrl = b.imageUrl)
    (h : problemInv b) : problemInv a := by
  unfold problemInv at h ⊢
  rw [h1, h2]
  exact h

theorem handleSolve_frame (w : World) (now : Nat) (r : SolverResult) :
    (handleSolve w now r).app.imageBase64 = w.app.imageBase64 ∧
    (handleSolve w now r).app.imageUrl = w.app.imageUrl := by
  unfold handleSolve
  split
  · exact ⟨rfl, rfl⟩
  · split
    · exact ⟨rfl, rfl⟩
    · exact ⟨rfl, rfl⟩

theorem handleCropConfirm_presence (w : World) (ref : Option SourceImage)
    (env : CanvasEnv) (u : Nat) (hinv : presenceInv w.app) :
    presenceInv (handleCropConfirm w ref env u).app := by
  unfold handleCropConfirm
  split
  · split
    · exact hinv
    · rfl
    · exact hinv
  · exact hinv

theorem handleCropConfirm_inv (w : World) (ref : Option SourceImage)
    (env : CanvasEnv) (u : Nat)
    (hq : ∀ bs m, env.serialize bs m (some 1) = env.serialize bs m none)
    (hcm : ∀ m, w.app.originalMimeType = some m → (',' : Char) ∉ m.toList)
    (hinv : problemInv w.app) :
    problemInv (handleCropConfirm w ref env u).app := by
  unfold handleCropConfirm
  cases hc : w.app.completedCrop with
  | none => exact hinv
  | some crop =>
      cases ref with
      | none => exact hinv
      | some image =>
          cases hm : w.app.originalMimeType with
          | none => exact hinv
          | some mime =>
              dsimp only
              cases hg : getCroppedImg image crop mime env u with
              | none => exact hinv
              | some res =>
                  cases res with
                  | error e => exact hinv
                  | ok data =>
                      have hshape := getCroppedImg_ok_shape hg
                      refine ⟨rfl, ?_⟩
                      intro img u2 h1 h2
                      have himg : data.base64 = img.base64 :=
                        congrArg ImageData.base64 (Option.some.inj h1)
                      have hu2 : data.url = u2 := Option.some.inj h2
                      have hurlp : DisplayUrl.payloadBytes data.url
                          = data.base64 := by
                        rw [hshape.2, hq (canvasBytes image crop env.pixelRatio)
                          mime, hshape.1, payload_extract mime _ (hcm mime hm)]
                        rfl
                      rw [← hu2, hurlp]
                      exact himg

/-- C8 counterexample: from a state satisfying the ProblemState
invariant, confirming a crop under a lossy canvas encoder breaks the
same-bytes half of the invariant — the payload comes from the
default-quality `toDataURL` serialization while the display URL's blob
comes from a separate maximum-quality `toBlob` serialization of the
same canvas, and those bytes differ — so the invariant is not preserved
by every operation as claimed. -/
theorem C8_counterexample :
    problemInv lossyCropWorld.app ∧
    ¬ problemInv (step lossyCropWorld
        (AppEvent.cropConfirm (some lossyImg) lossyEnv 3)).app := by
  constructor
  · exact ⟨rfl, fun _ _ h1 _ => nomatch h1⟩
  · intro h
    exact absurd (h.2 _ _ rfl rfl) (by decide)

/-- C8 (amended): the presence half of the ProblemState invariant —
the display URL is present exactly when the encoded image is present —
holds initially and is preserved by every operation (file pick, crop
confirm including its failure and hang branches, crop cancel, solve,
history select/delete/clear).  The full invariant — additionally, the
display URL renders the same bytes as the encoded image — holds
initially and is preserved by every operation provided that at crop
confirm the canvas encoder produces the same bytes at maximum quality
(the display handle's `toBlob` serialization) as at default quality
(the payload's `toDataURL` serialization) — as a lossless encoder does
— and the remembered MIME type contains no comma; with a lossy encoder
the two serializations of the same canvas may differ and the displayed
URL then renders a maximum-quality re-serialization rather than the
payload's bytes. -/
theorem C8_problem_state_invariant :
    problemInv initWorld.app ∧
    (∀ (w : World) (ev : AppEvent),
      presenceInv w.app → presenceInv (step w ev).app) ∧
    (∀ (w : World) (ev : AppEvent),
      consistentSerialization w ev → problemInv w.app →
        problemInv (step w ev).app) := by
  refine ⟨⟨rfl, fun _ _ h1 _ => nomatch h1⟩, ?_, ?_⟩
  · intro w ev hinv
    cases ev with
    | pickFile file u =>
        cases file with
        | none => exact hinv
        | some f => rfl
    | setCompletedCrop c => exact hinv
    | cropConfirm ref env u => exact handleCropConfirm_presence w ref env u hinv
    | cropCancel => exact hinv
    | solve now r =>
        show presenceInv (handleSolve w now r).app
        unfold presenceInv
        rw [(handleSolve_frame w now r).1, (handleSolve_frame w now r).2]
        exact hinv
    | selectHistory item => rfl
    | deleteHistory id => exact hinv
    | clearHistory => exact hinv
  · intro w ev hcons hinv
    cases ev with
    | pickFile file u =>
        cases file with
        | none => exact hinv
        | some f => exact ⟨rfl, fun _ _ h1 _ => nomatch h1⟩
    | setCompletedCrop c => exact hinv
    | cropConfirm ref env u =>
        exact handleCropConfirm_inv w ref env u hcons.1 hcons.2 hinv
    | cropCancel => exact hinv
    | solve now r =>
        exact problemInv_of_fields (handleSolve_frame w now r).1
          (handleSolve_frame w now r).2 hinv
    | selectHistory item =>
        refine ⟨rfl, ?_⟩
        intro img u2 h1 h2
        have h1x : some item.imageData = some img := h1
        have h2x : some (DisplayUrl.dataUrl item.imageData.mimeType
            item.imageData.base64) = some u2 := h2
        rw [← Option.some.inj h1x, ← Option.some.inj h2x]
        rfl
    | deleteHistory id => exact hinv
    | clearHistory => exact hinv

theorem C8_problem_state_invariant_witness :
    problemInv (step initWorld AppEvent.cropCancel).app :=
  C8_problem_state_invariant.2.2 initWorld AppEvent.cropCancel trivial
    ⟨rfl, fun _ _ h1 _ => nomatch h1⟩

end KhmerLimitSolver
